/-
Verification of the training-program discovery/validation/ranking pipeline
(backend of grad2career).

Shallow embedding of the Python sources:
  * `backend/app/services/agents/training_search_agent/agent.py`
    (`serper_search`, `verify_url`, `geocode_address` call shape,
     `match_constraints`, `add_geocoding_and_constraints`)
  * `backend/app/api/routes/training.py`
    (`calculate_relevance_score`, the duplicate-removal loop of
     `get_coal_miner_training_recommendations`, `save_programs_to_database`)

Modelling conventions:
  * Python `str` is `String`; `dict.get(k) or ''` / `.get(k, '')` on a
    possibly-missing key is `Option String` read through `orEmpty`.
  * A user-constraint value that Python may hold as `None` is modelled as
    `""`: the code only tests truthiness and equality with non-empty
    literals, on which `None` and `""` behave identically.
  * Python `in` on strings is `strContains` (infix-of on character lists);
    `.lower()` / `.strip()` are `pyLower` / `pyStrip` (defined over the
    character list; the data in this code path is ASCII, where they agree
    with Python).
  * Network effects are passed in explicitly: an `HttpOutcome` /
    `NetOutcome` value stands for what the one HTTP call of the function
    returned, and a geocoder is a function `String → Option (ℚ × ℚ)`
    (`none` = any failure: timeout, no match, missing credentials).
  * Numeric scores are exact: `ℚ` for `calculate_relevance_score`
    (Python float arithmetic on these small integers and one division),
    `ℕ` for the integer `match_score` of `add_geocoding_and_constraints`.
  * Python exception text (`str(e)`) for HTTP status errors is modelled as
    a message derived from the status code; its exact wording is never
    load-bearing below.
-/
import Mathlib

namespace G2C

/-! ## String helpers (models of the Python primitives used) -/

/-- Does `pat` start `l`? (character-list prefix test) -/
def startsWithL : List Char → List Char → Bool
  | [], _ => true
  | _ :: _, [] => false
  | a :: as, b :: bs => a == b && startsWithL as bs

/-- Does `pat` occur contiguously inside `l`? -/
def occursIn (pat : List Char) : List Char → Bool
  | [] => pat.isEmpty
  | b :: bs => startsWithL pat (b :: bs) || occursIn pat bs

/-- Model of Python `pat in hay` on strings: `pat` occurs as a contiguous
substring of `hay`. -/
def strContains (hay pat : String) : Bool :=
  occursIn pat.toList hay.toList

/-- Model of Python `d.get(k) or ''` / `d.get(k, '')` for a string-valued,
possibly missing (or `None`) key. -/
def orEmpty : Option String → String
  | none => ""
  | some s => s

/-- Model of Python `str.strip()`: whitespace removed from both ends.
(Defined over the character list so that it evaluates in the kernel;
`String.trim` agrees but uses well-founded recursion.) -/
def pyStrip (s : String) : String :=
  .mk (((s.data.dropWhile Char.isWhitespace).reverse.dropWhile Char.isWhitespace).reverse)

/-- Model of Python `str.lower()` (the data on this code path is ASCII,
where `Char.toLower` agrees with Python). -/
def pyLower (s : String) : String :=
  .mk (s.data.map Char.toLower)

/-- Digits-to-number accumulation: model of Python
`int(''.join(filter(str.isdigit, cost_str)))` once the digit list is known
to be non-empty (the empty case raises `ValueError` and is handled by the
caller's `except`). -/
def digitsToNat (cs : List Char) : Nat :=
  cs.foldl (fun n c => n * 10 + (c.toNat - '0'.toNat)) 0

/-! ## Data model

`Program` carries the fields that `match_constraints`,
`add_geocoding_and_constraints` and `calculate_relevance_score` read or
write on the Python program dicts.  A field the dict may lack is an
`Option`. -/

/-- `ConstraintMatch` (schema.py): three-state verdict per axis plus the
collected reason strings. -/
structure ConstraintMatch where
  meets_budget : String
  meets_travel : String
  meets_schedule : String
  overall_match : Bool
  mismatch_reasons : List String
  unknown_info : List String
deriving Repr, DecidableEq

/-- A program dict as it flows through the pipeline. -/
structure Program where
  program_name : Option String := none
  provider : Option String := none
  location : Option String := none
  state : Option String := none
  cost : Option String := none
  description : Option String := none
  schedule_type : Option String := none
  is_coal_miner_specific : Bool := false
  latitude : Option ℚ := none
  longitude : Option ℚ := none
  constraint_match : Option ConstraintMatch := none
  match_score : Option Nat := none
deriving Repr, DecidableEq

/-- The `user_constraints` dict read by `match_constraints`
(`budget_constraint`, `travel_constraint`, `scheduling`; absent/`None`
modelled as `""`). -/
structure UserConstraints where
  budget_constraint : String := ""
  travel_constraint : String := ""
  scheduling : String := ""
deriving Repr, DecidableEq

/-! ## `match_constraints` (agent.py lines 536-653)

The Python function computes the three axis verdicts sequentially,
appending mismatch/unknown messages in axis order (budget, travel,
schedule).  Each axis is embedded as a helper returning its verdict and
its message contributions. -/

/-- One axis outcome: verdict string plus the messages this axis appends to
`mismatch_reasons` and `unknown_info`. -/
structure AxisVerdict where
  verdict : String
  mismatches : List String
  unknowns : List String
deriving Repr, DecidableEq

/-- Keyword list of the `budget_constraint == 'free'` branch. -/
def freeKeywords : List String := ["free", "grant", "funded", "$0", "no cost"]

/-- Keyword list of the `budget_constraint == '1000'` branch. -/
def budget1000Keywords : List String := ["free", "grant", "funded", "$0"]

/-- Model of the dollar-amount parsing in the `'1000'` branch:
`program_cost_lower.split('$')[1].split()[0].replace(',','').replace('+','')`
then `int(''.join(filter(str.isdigit, ...)))`.  `none` stands for the
`except:` path (IndexError on a missing whitespace token after `$`, or
ValueError when no digit remains). -/
def parseCostAfterDollar (pcl : String) : Option Nat :=
  match (pcl.data.splitOn '$').drop 1 with
  | [] => none
  | a :: _ =>
    match (List.splitOnP Char.isWhitespace a).filter (fun t => !t.isEmpty) with
    | [] => none
    | w :: _ =>
      let cost_str := w.filter (fun c => c != ',' && c != '+')
      let digits := cost_str.filter Char.isDigit
      if digits.isEmpty then none else some (digitsToNat digits)

/-- Budget axis of `match_constraints` (lines 555-591). -/
def budgetVerdict (budget_constraint program_cost : String) : AxisVerdict :=
  if budget_constraint != "" && program_cost != "" then
    if budget_constraint == "free" then
      if freeKeywords.any (fun k => strContains (pyLower program_cost) k) then
        ⟨"yes", [], []⟩
      else if strContains (pyLower program_cost) "contact"
          || strContains (pyLower program_cost) "pricing" then
        ⟨"unknown", [], ["Cost not specified - contact program for details"]⟩
      else
        ⟨"no", ["Cost is " ++ program_cost ++ " (user needs free program)"], []⟩
    else if budget_constraint == "1000" then
      if budget1000Keywords.any (fun k => strContains (pyLower program_cost) k) then
        ⟨"yes", [], []⟩
      else if strContains (pyLower program_cost) "$" then
        match parseCostAfterDollar (pyLower program_cost) with
        | some cost_num =>
          if cost_num ≤ 1000 then
            ⟨"yes", [], []⟩
          else
            ⟨"no", ["Cost $" ++ toString cost_num ++ " exceeds budget of $1,000"], []⟩
        | none => ⟨"unknown", [], ["Cost format unclear - please verify"]⟩
      else
        ⟨"unknown", [], ["Cost not specified - contact program"]⟩
    else
      ⟨"unknown", [], []⟩
  else if budget_constraint != "" then
    ⟨"unknown", [], ["No cost information available"]⟩
  else
    ⟨"unknown", [], []⟩

/-- Travel axis of `match_constraints` (lines 594-616).
`schedule_type` is already stripped and lower-cased by the caller. -/
def travelVerdict (travel_constraint schedule_type : String) : AxisVerdict :=
  if travel_constraint != "" && schedule_type != "" then
    if travel_constraint == "remote" then
      if strContains schedule_type "online" || strContains schedule_type "remote" then
        ⟨"yes", [], []⟩
      else if strContains schedule_type "in-person" || strContains schedule_type "campus"
          || strContains schedule_type "on-site" then
        ⟨"no", ["In-person program (user needs remote/online)"], []⟩
      else
        ⟨"unknown", [], ["Delivery format not specified - verify if online option available"]⟩
    else
      if strContains schedule_type "online" || strContains schedule_type "hybrid"
          || strContains schedule_type "flexible" then
        ⟨"yes", [], []⟩
      else
        ⟨"unknown", [], ["Location details not clear - verify program location"]⟩
  else if travel_constraint != "" then
    ⟨"unknown", [], ["No location/delivery format information"]⟩
  else
    ⟨"unknown", [], []⟩

/-- Schedule axis of `match_constraints` (lines 619-641). -/
def scheduleVerdict (scheduling schedule_type : String) : AxisVerdict :=
  if scheduling != "" && schedule_type != "" then
    if scheduling == "evenings_weekends" then
      if strContains schedule_type "part" || strContains schedule_type "evening"
          || strContains schedule_type "weekend" || strContains schedule_type "flexible" then
        ⟨"yes", [], []⟩
      else if strContains schedule_type "full_time" || strContains schedule_type "full-time" then
        ⟨"no", ["Full-time schedule (user needs evenings/weekends)"], []⟩
      else
        ⟨"unknown", [], ["Schedule details not specified"]⟩
    else if scheduling == "full_time" then
      if strContains schedule_type "full" then
        ⟨"yes", [], []⟩
      else
        ⟨"unknown", [], ["Schedule format unclear"]⟩
    else
      ⟨"yes", [], []⟩
  else if scheduling != "" then
    ⟨"unknown", [], ["No schedule information available"]⟩
  else
    ⟨"unknown", [], []⟩

/-- `match_constraints(program, user_constraints)`: assembles the three
axes; `overall_match` is true only when all three verdicts are `'yes'`;
messages are concatenated in axis order. -/
def match_constraints (program : Program) (uc : UserConstraints) : ConstraintMatch :=
  let b := budgetVerdict uc.budget_constraint (pyStrip (orEmpty program.cost))
  let st := pyLower (pyStrip (orEmpty program.schedule_type))
  let t := travelVerdict uc.travel_constraint st
  let s := scheduleVerdict uc.scheduling st
  { meets_budget := b.verdict
    meets_travel := t.verdict
    meets_schedule := s.verdict
    overall_match := b.verdict == "yes" && t.verdict == "yes" && s.verdict == "yes"
    mismatch_reasons := b.mismatches ++ t.mismatches ++ s.mismatches
    unknown_info := b.unknowns ++ t.unknowns ++ s.unknowns }

/-! ### Helper lemmas about the axis verdicts -/

theorem budgetVerdict_verdict_cases (b c : String) :
    (budgetVerdict b c).verdict = "yes" ∨ (budgetVerdict b c).verdict = "no"
      ∨ (budgetVerdict b c).verdict = "unknown" := by
  unfold budgetVerdict
  repeat' split
  all_goals simp

theorem travelVerdict_verdict_cases (t c : String) :
    (travelVerdict t c).verdict = "yes" ∨ (travelVerdict t c).verdict = "no"
      ∨ (travelVerdict t c).verdict = "unknown" := by
  unfold travelVerdict
  repeat' split
  all_goals simp

theorem scheduleVerdict_verdict_cases (s c : String) :
    (scheduleVerdict s c).verdict = "yes" ∨ (scheduleVerdict s c).verdict = "no"
      ∨ (scheduleVerdict s c).verdict = "unknown" := by
  unfold scheduleVerdict
  repeat' split
  all_goals simp

theorem budgetVerdict_verdict_ne_empty (b c : String) :
    (budgetVerdict b c).verdict ≠ "" := by
  rcases budgetVerdict_verdict_cases b c with h | h | h <;> rw [h] <;> decide

theorem budgetVerdict_empty_cost (b : String) (hb : b ≠ "") :
    budgetVerdict b "" = ⟨"unknown", [], ["No cost information available"]⟩ := by
  unfold budgetVerdict
  simp [hb]

theorem budgetVerdict_empty_budget (c : String) :
    budgetVerdict "" c = ⟨"unknown", [], []⟩ := by
  unfold budgetVerdict
  simp

theorem travelVerdict_empty_travel (c : String) :
    travelVerdict "" c = ⟨"unknown", [], []⟩ := by
  unfold travelVerdict
  simp

theorem scheduleVerdict_empty_scheduling (c : String) :
    scheduleVerdict "" c = ⟨"unknown", [], []⟩ := by
  unfold scheduleVerdict
  simp

theorem match_constraints_meets_budget_eq (p : Program) (uc : UserConstraints) :
    (match_constraints p uc).meets_budget
      = (budgetVerdict uc.budget_constraint (pyStrip (orEmpty p.cost))).verdict := rfl

theorem match_constraints_overall_eq (p : Program) (uc : UserConstraints) :
    (match_constraints p uc).overall_match
      = ((budgetVerdict uc.budget_constraint (pyStrip (orEmpty p.cost))).verdict == "yes"
        && (travelVerdict uc.travel_constraint
              (pyLower (pyStrip (orEmpty p.schedule_type)))).verdict == "yes"
        && (scheduleVerdict uc.scheduling
              (pyLower (pyStrip (orEmpty p.schedule_type)))).verdict == "yes") := rfl

/-- C1: for every program whose cost text is absent or empty and every
user-constraint set containing a non-empty budget constraint,
`match_constraints` returns `meets_budget = 'unknown'` — never `'yes'`
and never `'no'`. -/
theorem match_constraints_no_cost_budget_unknown
    (p : Program) (uc : UserConstraints)
    (hcost : p.cost = none ∨ p.cost = some "")
    (hbudget : uc.budget_constraint ≠ "") :
    (match_constraints p uc).meets_budget = "unknown" ∧
    (match_constraints p uc).meets_budget ≠ "yes" ∧
    (match_constraints p uc).meets_budget ≠ "no" := by
  have hc : pyStrip (orEmpty p.cost) = "" := by
    rcases hcost with h | h <;> rw [h] <;> rfl
  rw [match_constraints_meets_budget_eq, hc, budgetVerdict_empty_cost _ hbudget]
  refine ⟨rfl, by decide, by decide⟩

/-- Witness for C1 at a concrete input: a program with no `cost` field and
the budget constraint `'free'` gets verdict `'unknown'`. -/
theorem match_constraints_no_cost_budget_unknown_witness :
    (({} : Program).cost = none ∨ ({} : Program).cost = some "") ∧
    ({ budget_constraint := "free" } : UserConstraints).budget_constraint ≠ "" ∧
    ((match_constraints {} { budget_constraint := "free" }).meets_budget = "unknown" ∧
     (match_constraints {} { budget_constraint := "free" }).meets_budget ≠ "yes" ∧
     (match_constraints {} { budget_constraint := "free" }).meets_budget ≠ "no") :=
  ⟨Or.inl rfl, by decide,
   match_constraints_no_cost_budget_unknown {} { budget_constraint := "free" }
     (Or.inl rfl) (by decide)⟩

/-- C10: if any one of the three user constraints (`budget_constraint`,
`travel_constraint`, `scheduling`) is absent or empty, `match_constraints`
leaves the corresponding axis at `'unknown'`, and therefore returns
`overall_match = false`; in particular with an empty constraint set no
program is ever an overall match. -/
theorem match_constraints_missing_axis_unknown
    (p : Program) (uc : UserConstraints) :
    (uc.budget_constraint = "" → (match_constraints p uc).meets_budget = "unknown") ∧
    (uc.travel_constraint = "" → (match_constraints p uc).meets_travel = "unknown") ∧
    (uc.scheduling = "" → (match_constraints p uc).meets_schedule = "unknown") ∧
    ((uc.budget_constraint = "" ∨ uc.travel_constraint = "" ∨ uc.scheduling = "") →
      (match_constraints p uc).overall_match = false) := by
  have hb : uc.budget_constraint = "" →
      (budgetVerdict uc.budget_constraint (pyStrip (orEmpty p.cost))).verdict = "unknown" := by
    intro h; rw [h, budgetVerdict_empty_budget]
  have ht : uc.travel_constraint = "" →
      (travelVerdict uc.travel_constraint
        (pyLower (pyStrip (orEmpty p.schedule_type)))).verdict = "unknown" := by
    intro h; rw [h, travelVerdict_empty_travel]
  have hs : uc.scheduling = "" →
      (scheduleVerdict uc.scheduling
        (pyLower (pyStrip (orEmpty p.schedule_type)))).verdict = "unknown" := by
    intro h; rw [h, scheduleVerdict_empty_scheduling]
  refine ⟨fun h => hb h, fun h => ht h, fun h => hs h, fun h => ?_⟩
  rw [match_constraints_overall_eq]
  rcases h with h | h | h
  · rw [hb h, show (("unknown" : String) == "yes") = false from by decide]
    simp
  · rw [ht h, show (("unknown" : String) == "yes") = false from by decide]
    simp
  · rw [hs h, show (("unknown" : String) == "yes") = false from by decide]
    simp

/-- Witness for C10 at a concrete input: the empty constraint set never
yields an overall match. -/
theorem match_constraints_missing_axis_unknown_witness :
    (({} : UserConstraints).budget_constraint = "" ∨
     ({} : UserConstraints).travel_constraint = "" ∨
     ({} : UserConstraints).scheduling = "") ∧
    (match_constraints {} {}).overall_match = false :=
  ⟨Or.inl rfl, (match_constraints_missing_axis_unknown {} {}).2.2.2 (Or.inl rfl)⟩

/-! ## `add_geocoding_and_constraints` (agent.py lines 656-732)

The per-program body is split into the geocoding enrichment
(lines 673-706) and the constraint/score step (lines 708-727); the final
sort (line 730, `list.sort(key=..., reverse=True)`, stable) is embedded as
a stable descending insertion sort on `match_score` (`.get('match_score', 0)`). -/

/-- The sort key `x.get('match_score', 0)`. -/
def scoreOf (p : Program) : Nat := p.match_score.getD 0

/-- Geocoding enrichment for one program (lines 673-706): build the
address query (provider+state, provider+location, provider alone, or bare
location), call the geocoder, and attach coordinates only on success. -/
def geocodeEnrich (geo : String → Option (ℚ × ℚ)) (program : Program) : Program :=
  let provider := pyStrip (orEmpty program.provider)
  let state := pyStrip (orEmpty program.state)
  let location := pyStrip (orEmpty program.location)
  let address_to_geocode : Option String :=
    if provider != "" then
      if state != "" then some (provider ++ ", " ++ state)
      else if location != "" then some (provider ++ ", " ++ location)
      else some provider
    else if location != "" then some location
    else none
  match address_to_geocode with
  | some addr =>
    match geo addr with
    | some latlng => { program with latitude := some latlng.1, longitude := some latlng.2 }
    | none => program
  | none => program

/-- Score computation of lines 713-725: base 50, +30 when
`is_coal_miner_specific` is truthy, then +20 on `overall_match` else +10
when `meets_budget` is truthy (a non-empty string). -/
def scoreBonus (is_coal : Bool) (cm : ConstraintMatch) : Nat :=
  50 + (if is_coal then 30 else 0)
    + (if cm.overall_match then 20 else if cm.meets_budget != "" then 10 else 0)

/-- One loop iteration of `add_geocoding_and_constraints`: geocode, attach
`constraint_match`, attach `match_score = min(score, 100)`. -/
def enhanceProgram (geo : String → Option (ℚ × ℚ)) (uc : UserConstraints)
    (program : Program) : Program :=
  let program := geocodeEnrich geo program
  let cm := match_constraints program uc
  { program with
      constraint_match := some cm
      match_score := some (min (scoreBonus program.is_coal_miner_specific cm) 100) }

/-- Stable descending insertion on `scoreOf`: an element is inserted
before the first element of equal or lower score, so an earlier-input
program precedes later programs with the same score — Python's stable
sort tie order (spec: ties broken by discovery order). -/
def insertByScoreDesc (p : Program) : List Program → List Program
  | [] => [p]
  | q :: qs => if scoreOf q ≤ scoreOf p then p :: q :: qs else q :: insertByScoreDesc p qs

/-- Stable descending sort on `scoreOf`, the model of
`enhanced_programs.sort(key=lambda x: x.get('match_score', 0), reverse=True)`. -/
def sortByScoreDesc : List Program → List Program
  | [] => []
  | p :: ps => insertByScoreDesc p (sortByScoreDesc ps)

/-- `add_geocoding_and_constraints(programs, user_constraints)`. -/
def add_geocoding_and_constraints (geo : String → Option (ℚ × ℚ))
    (programs : List Program) (uc : UserConstraints) : List Program :=
  sortByScoreDesc (programs.map (enhanceProgram geo uc))

theorem insertByScoreDesc_perm (p : Program) (l : List Program) :
    List.Perm (insertByScoreDesc p l) (p :: l) := by
  induction l with
  | nil => exact List.Perm.refl _
  | cons q qs ih =>
    unfold insertByScoreDesc
    split
    · exact List.Perm.refl _
    · exact (List.Perm.cons q ih).trans (List.Perm.swap p q qs)

theorem sortByScoreDesc_perm (l : List Program) : List.Perm (sortByScoreDesc l) l := by
  induction l with
  | nil => exact List.Perm.refl _
  | cons p ps ih =>
    exact (insertByScoreDesc_perm p _).trans (List.Perm.cons p ih)

theorem geocodeEnrich_all_fail (geo : String → Option (ℚ × ℚ)) (program : Program)
    (hgeo : ∀ a, geo a = none) : geocodeEnrich geo program = program := by
  unfold geocodeEnrich
  simp only [hgeo]
  repeat' split
  all_goals rfl

theorem enhanceProgram_latitude (geo : String → Option (ℚ × ℚ)) (uc : UserConstraints)
    (program : Program) :
    (enhanceProgram geo uc program).latitude = (geocodeEnrich geo program).latitude ∧
    (enhanceProgram geo uc program).longitude = (geocodeEnrich geo program).longitude ∧
    (enhanceProgram geo uc program).program_name = (geocodeEnrich geo program).program_name :=
  ⟨rfl, rfl, rfl⟩

/-- C7: if the geocoding lookup fails for every program in the batch, the
enrichment step still returns the full list (same length), every output
record corresponds to an input record with untouched coordinates and name,
and in particular coordinates that started unset stay unset; no record's
failure aborts the batch (the function is total). -/
theorem add_geocoding_all_fail_returns_programs
    (geo : String → Option (ℚ × ℚ)) (uc : UserConstraints) (programs : List Program)
    (hgeo : ∀ a, geo a = none) :
    (add_geocoding_and_constraints geo programs uc).length = programs.length ∧
    (∀ q ∈ add_geocoding_and_constraints geo programs uc,
      ∃ p ∈ programs, q.latitude = p.latitude ∧ q.longitude = p.longitude ∧
        q.program_name = p.program_name) ∧
    ((∀ p ∈ programs, p.latitude = none ∧ p.longitude = none) →
      ∀ q ∈ add_geocoding_and_constraints geo programs uc,
        q.latitude = none ∧ q.longitude = none) := by
  have hperm : List.Perm (add_geocoding_and_constraints geo programs uc)
      (programs.map (enhanceProgram geo uc)) := sortByScoreDesc_perm _
  have hmem : ∀ q ∈ add_geocoding_and_constraints geo programs uc,
      ∃ p ∈ programs, q.latitude = p.latitude ∧ q.longitude = p.longitude ∧
        q.program_name = p.program_name := by
    intro q hq
    obtain ⟨p, hp, rfl⟩ := List.mem_map.mp (hperm.mem_iff.mp hq)
    refine ⟨p, hp, ?_, ?_, ?_⟩
    · rw [(enhanceProgram_latitude geo uc p).1, geocodeEnrich_all_fail geo p hgeo]
    · rw [(enhanceProgram_latitude geo uc p).2.1, geocodeEnrich_all_fail geo p hgeo]
    · rw [(enhanceProgram_latitude geo uc p).2.2, geocodeEnrich_all_fail geo p hgeo]
  refine ⟨by rw [hperm.length_eq, List.length_map], hmem, ?_⟩
  intro hin q hq
  obtain ⟨p, hp, h1, h2, _⟩ := hmem q hq
  exact ⟨h1.trans (hin p hp).1, h2.trans (hin p hp).2⟩

/-- Witness for C7 at a concrete input: one program, a geocoder that
always fails; the batch comes back whole. -/
theorem add_geocoding_all_fail_returns_programs_witness :
    (add_geocoding_and_constraints (fun _ => none) [{}] {}).length = 1 :=
  (add_geocoding_all_fail_returns_programs (fun _ => none) {} [{}] (fun _ => rfl)).1

theorem match_constraints_meets_budget_ne_empty (p : Program) (uc : UserConstraints) :
    (match_constraints p uc).meets_budget ≠ "" := by
  rw [match_constraints_meets_budget_eq]
  exact budgetVerdict_verdict_ne_empty _ _

theorem scoreBonus_bounds (is_coal : Bool) (cm : ConstraintMatch)
    (hb : cm.meets_budget ≠ "") : 60 ≤ scoreBonus is_coal cm ∧ scoreBonus is_coal cm ≤ 100 := by
  have hb' : (cm.meets_budget != "") = true := by simp [hb]
  unfold scoreBonus
  cases is_coal <;> cases hcm : cm.overall_match <;> simp [hcm, hb']

/-- C9 (implicit): every program returned by `add_geocoding_and_constraints`
has a `match_score`, and it lies in `[60, 100]`: the base 50 is always
granted and at least 10 more is always added, because `meets_budget` is one
of the non-empty strings `'yes'`/`'no'`/`'unknown'` and line 722 tests it
for truthiness rather than comparing with `'yes'`. -/
theorem add_geocoding_match_score_bounds
    (geo : String → Option (ℚ × ℚ)) (uc : UserConstraints) (programs : List Program) :
    ∀ q ∈ add_geocoding_and_constraints geo programs uc,
      60 ≤ q.match_score.getD 0 ∧ q.match_score.getD 0 ≤ 100 ∧
      q.match_score.isSome = true := by
  intro q hq
  obtain ⟨p, _, rfl⟩ := List.mem_map.mp ((sortByScoreDesc_perm _).mem_iff.mp hq)
  have hms : (enhanceProgram geo uc p).match_score
      = some (min (scoreBonus (geocodeEnrich geo p).is_coal_miner_specific
          (match_constraints (geocodeEnrich geo p) uc)) 100) := rfl
  have hb := scoreBonus_bounds (geocodeEnrich geo p).is_coal_miner_specific
    (match_constraints (geocodeEnrich geo p) uc)
    (match_constraints_meets_budget_ne_empty _ _)
  rw [hms]
  simp only [Option.getD_some, Option.isSome_some]
  exact ⟨le_min hb.1 (by norm_num), ⟨min_le_right _ _, trivial⟩⟩

/-- Witness for C9 at a concrete input: the all-defaults program with the
empty constraint set (overall_match false, meets_budget 'unknown') still
scores 60. -/
theorem add_geocoding_match_score_bounds_witness :
    60 ≤ (enhanceProgram (fun _ => none) {} {}).match_score.getD 0 ∧
    (enhanceProgram (fun _ => none) {} {}).match_score.getD 0 ≤ 100 ∧
    (enhanceProgram (fun _ => none) {} {}).match_score.isSome = true :=
  add_geocoding_match_score_bounds (fun _ => none) {} [{}] _ (by decide)

/-! ## `calculate_relevance_score` (training.py lines 78-117)

The function also sets `program['is_coal_miner_specific'] = True` as a side
effect when the coal-miner keyword check fires (line 98, read later by
`filter_and_rank_programs`); no claim depends on that flag, so only the
returned score is embedded.  `user_data` also carries `scheduling` and
`target_sector`, which this function never reads. -/

def COAL_MINER_KEYWORDS : List String :=
  ["coal miner", "coal worker", "mining transition", "displaced miner",
   "coal community", "mine worker retraining", "appalachian transition"]

def RENEWABLE_ENERGY_KEYWORDS : List String :=
  ["solar", "wind", "renewable energy", "clean energy", "photovoltaic",
   "wind turbine", "solar installer", "solar technician", "renewable technician"]

/-- The fields of `user_data` that `calculate_relevance_score` reads
(`state`, `budget_constraint`; absent/`None` modelled as `""`). -/
structure UserData where
  state : String := ""
  budget_constraint : String := ""
deriving Repr, DecidableEq

/-- Model of Python `user_state.replace('_', ' ')` (single-character
pattern, hence a per-character substitution). -/
def underscoreToSpace (s : String) : String :=
  .mk (s.data.map (fun c => if c == '_' then ' ' else c))

/-- `program_text` of lines 91-93: lower-cased name and description joined
with one space. -/
def programText (program : Program) : String :=
  pyLower (orEmpty program.program_name) ++ " " ++ pyLower (orEmpty program.description)

/-- Line 96: a coal-miner transition keyword occurs in the program text. -/
def coalKeywordHit (program : Program) : Bool :=
  COAL_MINER_KEYWORDS.any (fun k => strContains (programText program) k)

/-- Line 101: a renewable-energy keyword occurs in the program text. -/
def renewableKeywordHit (program : Program) : Bool :=
  RENEWABLE_ENERGY_KEYWORDS.any (fun k => strContains (programText program) k)

/-- Line 107: the user's state (underscores replaced by spaces) occurs in
the lower-cased program location. -/
def locationHit (program : Program) (user : UserData) : Bool :=
  user.state != ""
    && strContains (pyLower (orEmpty program.location)) (underscoreToSpace user.state)

/-- Line 113: budget constraint is `'free'` and the cost text contains a
free/grant/funded indicator. -/
def budgetHit (program : Program) (user : UserData) : Bool :=
  user.budget_constraint == "free"
    && (strContains (pyLower (orEmpty program.cost)) "free"
      || strContains (pyLower (orEmpty program.cost)) "grant"
      || strContains (pyLower (orEmpty program.cost)) "funded")

/-- `calculate_relevance_score(program, user_data)`: additive bonuses
50/30/20/10, then `min(score / 120 * 100, 100)`. -/
def calculate_relevance_score (program : Program) (user : UserData) : ℚ :=
  let score : ℚ := 0
  let score := if coalKeywordHit program then score + 50 else score
  let score := if renewableKeywordHit program then score + 30 else score
  let score := if locationHit program user then score + 20 else score
  let score := if budgetHit program user then score + 10 else score
  min (score / 120 * 100) 100

/-- C6: for every program and user data the relevance score equals
`min(raw / 120 * 100, 100)`, where raw is the sum of the four bonuses
(+50 displaced-worker keyword, +30 renewable-energy keyword, +20 region
token in location, +10 no-cost budget met by free/grant/funded cost text);
consequently the score always lies in [0, 100]. -/
theorem calculate_relevance_score_formula (program : Program) (user : UserData) :
    calculate_relevance_score program user =
      min (((if coalKeywordHit program then (50 : ℚ) else 0)
          + (if renewableKeywordHit program then (30 : ℚ) else 0)
          + (if locationHit program user then (20 : ℚ) else 0)
          + (if budgetHit program user then (10 : ℚ) else 0)) / 120 * 100) 100 ∧
    0 ≤ calculate_relevance_score program user ∧
    calculate_relevance_score program user ≤ 100 := by
  simp only [calculate_relevance_score]
  cases h1 : coalKeywordHit program <;>
    cases h2 : renewableKeywordHit program <;>
      cases h3 : locationHit program user <;>
        cases h4 : budgetHit program user <;>
          norm_num [min_def]

/-! ## `serper_search` (agent.py lines 31-80)

The single HTTP POST is modelled by an explicit `HttpOutcome`:
`response.raise_for_status()` raises exactly for non-2xx statuses (httpx
raises whenever `is_success` is false), and every other exception of the
`try` block (connection failure, timeout, JSON decode error) is a
`transportError`.  The Python function returns a status
dict: `{'status': 'success', 'results': [...]}` or
`{'status': 'error', 'error_message': ...}` — there is no `results` key on
the error path.  Log calls are recorded as `(level, message)` pairs;
`str(e)` of an HTTP status error is modelled as a message derived from the
status code (its wording is not load-bearing). -/

/-- One organic search item (`title`/`snippet`/`link`, missing keys read
with default `''`). -/
structure SearchItem where
  title : String := ""
  snippet : String := ""
  link : String := ""
deriving Repr, DecidableEq

/-- What the HTTP call of `serper_search` did. -/
inductive HttpOutcome where
  | transportError (msg : String)
  | response (status : Nat) (organic : List SearchItem)
deriving Repr, DecidableEq

/-- The returned status dict of `serper_search`. -/
inductive SerperResult where
  | error (error_message : String)
  | success (results : List SearchItem)
deriving Repr, DecidableEq

inductive LogLevel where
  | info
  | warning
  | error
deriving Repr, DecidableEq

/-- `serper_search(query, max_results)` with the configuration and the HTTP
outcome made explicit.  Returns the status dict and the log lines emitted
(in order).  An empty `api_key` models a missing `SERPER_API_KEY`. -/
def serper_search (api_key : String) (outcome : HttpOutcome)
    (query : String) (max_results : Nat) : SerperResult × List (LogLevel × String) :=
  if api_key == "" then
    (.error "Missing SERPER_API_KEY in environment",
     [(.warning, "Serper search skipped: missing SERPER_API_KEY")])
  else
    let startLog : LogLevel × String := (.info, "Serper search: query=" ++ query)
    match outcome with
    | .transportError msg =>
      (.error msg, [startLog, (.error, "Serper search error: " ++ msg)])
    | .response status organic =>
      if status < 200 ∨ 300 ≤ status then
        let msg := "HTTP status error " ++ toString status
        (.error msg, [startLog, (.error, "Serper search error: " ++ msg)])
      else
        let results := organic.take max_results
        (.success results,
         [startLog, (.info, "Serper search returned " ++ toString results.length ++ " results")])

/-- The failing outcomes within the claim's scope: a transport error, or
an HTTP error status ≥ 400 (client/server errors — a subset of the non-2xx
statuses on which `raise_for_status()` raises). -/
def isFailureOutcome : HttpOutcome → Bool
  | .transportError _ => true
  | .response status _ => decide (400 ≤ status)

/-- The `str(e)` text of the exception raised for a given failing outcome
(status-derived for HTTP errors, the transport message otherwise). -/
def failureMsg : HttpOutcome → String
  | .transportError msg => msg
  | .response status _ => "HTTP status error " ++ toString status

/-- Counterexample to C5 as stated: on a non-200 (here 500) response,
`serper_search` does NOT return an empty result list — it returns a
status-error payload with no result list at all — and none of its log
lines is at warning level (the failure is logged at error level). -/
theorem serper_search_cex :
    (serper_search "k" (HttpOutcome.response 500 []) "q" 5).1
      ≠ SerperResult.success [] ∧
    (serper_search "k" (HttpOutcome.response 500 []) "q" 5).1
      = SerperResult.error "HTTP status error 500" ∧
    ((serper_search "k" (HttpOutcome.response 500 []) "q" 5).2.all
      (fun e => e.1 ≠ LogLevel.warning)) = true := by
  refine ⟨by decide, rfl, by decide⟩

/-- C5 (amended): with an API key configured, on a non-200 (≥ 400) response
or a transport error `serper_search` returns a status-error payload
carrying the error message (no result list) and logs the failure at error
level; being a total function it never raises to its caller.  (Warning
level is used only for the missing-API-key case.) -/
theorem serper_search_failure_no_raise
    (api_key query : String) (outcome : HttpOutcome) (max_results : Nat)
    (hkey : api_key ≠ "") (hfail : isFailureOutcome outcome = true) :
    serper_search api_key outcome query max_results
      = (.error (failureMsg outcome),
         [(.info, "Serper search: query=" ++ query),
          (.error, "Serper search error: " ++ failureMsg outcome)]) := by
  have hkey' : (api_key == "") = false := by simp [hkey]
  cases outcome with
  | transportError msg => simp [serper_search, failureMsg, hkey']
  | response status organic =>
    have hs : 400 ≤ status := by simpa [isFailureOutcome] using hfail
    have hs' : status < 200 ∨ 300 ≤ status := Or.inr (by omega)
    simp [serper_search, failureMsg, hkey', hs']

/-- Witness for the amended C5 at a concrete input. -/
theorem serper_search_failure_no_raise_witness :
    ("k" : String) ≠ "" ∧
    isFailureOutcome (HttpOutcome.transportError "connection refused") = true ∧
    serper_search "k" (HttpOutcome.transportError "connection refused") "q" 3
      = (.error (failureMsg (HttpOutcome.transportError "connection refused")),
         [(.info, "Serper search: query=" ++ "q"),
          (.error, "Serper search error: "
            ++ failureMsg (HttpOutcome.transportError "connection refused"))]) :=
  ⟨by decide, by decide,
   serper_search_failure_no_raise "k" "q" (HttpOutcome.transportError "connection refused") 3
     (by decide) (by decide)⟩

/-! ## `verify_url` (agent.py lines 83-117)

The pure guard of lines 93-94 rejects any URL that is empty or does not
start with `'http'`.  The network part (HEAD with redirects, then GET when
HEAD's status is neither 200 nor ≥ 400) is modelled by a `NetOutcome`
value describing what the two potential requests returned; a timeout or
other exception anywhere in the `try` block is `timeout` / `exn`. -/

/-- Status and final URL of one HTTP request. -/
structure NetResp where
  status : Nat
  final_url : String
deriving Repr, DecidableEq

/-- What the network did for `verify_url`: overall timeout, other
exception, or the HEAD response (and the GET response used when HEAD is
inconclusive). -/
inductive NetOutcome where
  | timeout
  | exn (msg : String)
  | ok (head : NetResp) (get : NetResp)
deriving Repr, DecidableEq

/-- The returned status of `verify_url`: `{'status': 'valid', ...}` or
`{'status': 'invalid', 'error': ...}`. -/
inductive UrlStatus where
  | valid (final_url : String)
  | invalid (error : String)
deriving Repr, DecidableEq

/-- Does a `verify_url` outcome report the URL admissible
(`status == 'valid'`)? -/
def UrlStatus.isValid : UrlStatus → Bool
  | .valid _ => true
  | .invalid _ => false

/-- `verify_url(url)` with the network behaviour made explicit. -/
def verify_url (net : NetOutcome) (url : String) : UrlStatus :=
  if url == "" || !url.startsWith "http" then
    .invalid "Invalid URL format"
  else
    match net with
    | .timeout => .invalid "Timeout"
    | .exn msg => .invalid msg
    | .ok head get =>
      if head.status == 200 then
        .valid head.final_url
      else if head.status == 404 then
        .invalid "404 Not Found"
      else if 400 ≤ head.status then
        .invalid ("HTTP " ++ toString head.status)
      else if get.status == 200 then
        .valid get.final_url
      else
        .invalid ("HTTP " ++ toString get.status)

/-- Counterexample to C8 as stated.  The claim (spec §4.3 rule 1,
"Empty URL → admissible") requires `verify_url('')` to come back
admissible (`'valid'`); instead the guard at agent.py lines 93-94
(`if not url or not url.startswith('http')`) answers
`{'status': 'invalid', 'error': 'Invalid URL format'}` — here exhibited
against a network that would answer 200 to everything, so only the guard
can be responsible. -/
theorem verify_url_empty_cex :
    (verify_url (NetOutcome.ok ⟨200, "http://x"⟩ ⟨200, "http://x"⟩) "").isValid = false ∧
    verify_url (NetOutcome.ok ⟨200, "http://x"⟩ ⟨200, "http://x"⟩) ""
      = UrlStatus.invalid "Invalid URL format" :=
  ⟨rfl, rfl⟩

/-- C8 (amended): the URL admissibility check REJECTS the empty URL: for
the empty-string input `verify_url` is never admissible — it returns
invalid with error `'Invalid URL format'` regardless of network
behaviour, because the guard of lines 93-94 fires before any request is
made. -/
theorem verify_url_empty_always_invalid (net : NetOutcome) :
    verify_url net "" = UrlStatus.invalid "Invalid URL format" ∧
    (verify_url net "").isValid = false :=
  ⟨rfl, rfl⟩

/-! ## Duplicate removal (training.py lines 358-375)

`get_coal_miner_training_recommendations` collapses the raw CareerOneStop
results through an insertion-ordered dict `unique_programs` keyed by
`program.get('program_name', program.get('ProgramName', ''))`: a program
with an empty name, or with a name already in the dict, is dropped; the
kept program is normalized onto lower-case keys.  Output is
`list(unique_programs.values())` in insertion order. -/

/-- A raw CareerOneStop result: each attribute may arrive under the
lower-case or the capitalized key (or neither). -/
structure RawProgram where
  program_name : Option String := none
  ProgramName : Option String := none
  provider : Option String := none
  Provider : Option String := none
  location : Option String := none
  City : Option String := none
  duration : Option String := none
  Duration : Option String := none
  cost : Option String := none
  Cost : Option String := none
  description : Option String := none
  Description : Option String := none
  url : Option String := none
  URL : Option String := none
deriving Repr, DecidableEq

/-- A normalized program as built at lines 364-372 (all keys present,
missing values defaulted to `''`).  `is_coal_miner_specific` is not set by
the normalization (Python: the key is simply absent, read later with
default `False`). -/
structure NormProgram where
  program_name : String := ""
  provider : String := ""
  location : String := ""
  duration : String := ""
  cost : String := ""
  description : String := ""
  url : String := ""
  is_coal_miner_specific : Bool := false
deriving Repr, DecidableEq

/-- Model of `program.get(k, program.get(K, ''))`. -/
def getD2 (a b : Option String) : String := a.getD (b.getD "")

/-- The dict key of the duplicate-removal loop (line 361). -/
def rawName (p : RawProgram) : String := getD2 p.program_name p.ProgramName

/-- The normalization of lines 364-372. -/
def normalizeRaw (p : RawProgram) : NormProgram :=
  { program_name := rawName p
    provider := getD2 p.provider p.Provider
    location := getD2 p.location p.City
    duration := getD2 p.duration p.Duration
    cost := getD2 p.cost p.Cost
    description := getD2 p.description p.Description
    url := getD2 p.url p.URL }

/-- One iteration of the loop: keep the program only when its name is
non-empty and not seen before (`if program_name and program_name not in
unique_programs`). -/
def dedupStep (acc : List NormProgram) (p : RawProgram) : List NormProgram :=
  if rawName p != "" && acc.all (fun q => q.program_name != rawName p) then
    acc ++ [normalizeRaw p]
  else
    acc

/-- The whole duplicate-removal loop over `all_programs`. -/
def dedupPrograms (l : List RawProgram) : List NormProgram :=
  l.foldl dedupStep []

/-- The identity-key normalization as the SPEC words it (§3, §4.6:
"normalized `name` (case-folded, whitespace-collapsed)").  Defined from
the spec's words only, to compare with the exact-string key the code
actually uses. -/
def specNormalizeName (s : String) : String :=
  .mk (List.intercalate [' ']
    (((s.data.map Char.toLower).splitOnP Char.isWhitespace).filter (fun t => !t.isEmpty)))

theorem dedupStep_skip (acc : List NormProgram) (p : RawProgram)
    (h : rawName p = "" ∨ ∃ q ∈ acc, q.program_name = rawName p) :
    dedupStep acc p = acc := by
  have hc : (rawName p != "" && acc.all (fun q => q.program_name != rawName p)) = false := by
    rcases h with h | ⟨q, hq, hqname⟩
    · simp [h]
    · have hall : ¬(acc.all (fun r => r.program_name != rawName p) = true) := by
        rw [List.all_eq_true]
        intro hall
        have := hall q hq
        simp [hqname] at this
      simp [Bool.not_eq_true] at hall
      simp [hall]
  unfold dedupStep
  rw [hc]
  rfl

theorem foldl_dedupStep_skip_all (acc : List NormProgram) (l : List RawProgram)
    (h : ∀ p ∈ l, rawName p = "" ∨ ∃ q ∈ acc, q.program_name = rawName p) :
    l.foldl dedupStep acc = acc := by
  induction l with
  | nil => rfl
  | cons p ps ih =>
    rw [List.foldl_cons, dedupStep_skip acc p (h p (List.mem_cons_self p ps))]
    exact ih (fun r hr => h r (List.mem_cons_of_mem p hr))

theorem mem_dedupFold (l : List RawProgram) (acc : List NormProgram) :
    ∀ q ∈ l.foldl dedupStep acc, q ∈ acc ∨ ∃ p ∈ l, q = normalizeRaw p := by
  induction l generalizing acc with
  | nil =>
    intro q hq
    exact Or.inl hq
  | cons p ps ih =>
    intro q hq
    rw [List.foldl_cons] at hq
    rcases ih (dedupStep acc p) q hq with h | ⟨r, hr, rfl⟩
    · unfold dedupStep at h
      split at h
      · rcases List.mem_append.mp h with h' | h'
        · exact Or.inl h'
        · exact Or.inr ⟨p, List.mem_cons_self p ps, List.mem_singleton.mp h'⟩
      · exact Or.inl h
    · exact Or.inr ⟨r, List.mem_cons_of_mem p hr, rfl⟩

theorem dedupFold_pairwise (l : List RawProgram) (acc : List NormProgram)
    (hpw : acc.Pairwise (fun a b => a.program_name ≠ b.program_name))
    (hne : ∀ q ∈ acc, q.program_name ≠ "") :
    (l.foldl dedupStep acc).Pairwise (fun a b => a.program_name ≠ b.program_name) ∧
    ∀ q ∈ l.foldl dedupStep acc, q.program_name ≠ "" := by
  induction l generalizing acc with
  | nil => exact ⟨hpw, hne⟩
  | cons p ps ih =>
    rw [List.foldl_cons]
    apply ih
    · unfold dedupStep
      split
      · rename_i hcond
        rw [Bool.and_eq_true, List.all_eq_true] at hcond
        rw [List.pairwise_append]
        refine ⟨hpw, List.pairwise_singleton _ _, ?_⟩
        intro a ha b hb
        rw [List.mem_singleton.mp hb]
        have := hcond.2 a ha
        simp only [bne_iff_ne, ne_eq] at this
        exact fun heq => this heq
      · exact hpw
    · unfold dedupStep
      split
      · rename_i hcond
        rw [Bool.and_eq_true] at hcond
        intro q hq
        rcases List.mem_append.mp hq with h' | h'
        · exact hne q h'
        · rw [List.mem_singleton.mp h']
          have := hcond.1
          simp only [bne_iff_ne, ne_eq] at this
          exact this
      · exact hne

/-- Counterexample to C3 as stated: two candidate programs whose names
differ only in case and whitespace — hence share the spec's normalized
(name, region) key — do NOT collapse: the deduplicator keeps both. -/
theorem dedup_not_normalized_cex :
    specNormalizeName "Solar Training" = specNormalizeName "solar  training" ∧
    (dedupPrograms
      [{ program_name := some "Solar Training" },
       { program_name := some "solar  training" }]).length = 2 := by
  constructor
  · rfl
  · rfl

/-- C3 (amended): the deduplicator keys on the EXACT program-name string —
no case-folding, no whitespace-collapsing, and no region component: its
output has pairwise-distinct exact names (at most one record per exact
name) and contains no empty-named record; names differing only in case or
whitespace stay distinct. -/
theorem dedup_unique_exact_names (l : List RawProgram) :
    (dedupPrograms l).Pairwise (fun a b => a.program_name ≠ b.program_name) ∧
    ∀ q ∈ dedupPrograms l, q.program_name ≠ "" :=
  dedupFold_pairwise l [] (List.Pairwise.nil) (by intro q hq; cases hq)

/-- Witness for the amended C3 at a concrete input: a repeated name is
stored once, and the stored record's name is non-empty. -/
theorem dedup_unique_exact_names_witness :
    (dedupPrograms [{ program_name := some "A" }, { program_name := some "A" }]).Pairwise
      (fun a b => a.program_name ≠ b.program_name) ∧
    (normalizeRaw { program_name := some "A" }).program_name ≠ "" :=
  ⟨(dedup_unique_exact_names _).1,
   (dedup_unique_exact_names [{ program_name := some "A" }]).2 _ (by decide)⟩

/-- Counterexample to C4 as stated: two candidates share the identity key,
the first has no cost, the later duplicate carries cost `'$100'` — and the
merged output still has the empty cost: nothing is backfilled from the
later duplicate. -/
theorem dedup_no_backfill_cex :
    rawName { program_name := some "Solar Install Training" }
      = rawName { program_name := some "Solar Install Training", cost := some "$100" } ∧
    (dedupPrograms
      [{ program_name := some "Solar Install Training" },
       { program_name := some "Solar Install Training", cost := some "$100" }]).map
        (fun q => q.cost) = [""] := by
  constructor
  · rfl
  · rfl

/-- C4 (amended): when candidates share the same identity key (exact
program name), the first-seen record is kept as-is and every later
duplicate is discarded entirely: appending records whose keys are already
present (or empty) leaves the output unchanged — so no field of the base
is ever overwritten (in particular no populated field is replaced by an
empty one), and no field is backfilled from a later duplicate; every
output record is the unmodified normalization of some input record. -/
theorem dedup_first_seen_wins :
    (∀ l₁ l₂ : List RawProgram,
      (∀ p ∈ l₂, rawName p = "" ∨ ∃ q ∈ dedupPrograms l₁, q.program_name = rawName p) →
      dedupPrograms (l₁ ++ l₂) = dedupPrograms l₁) ∧
    (∀ l : List RawProgram, ∀ q ∈ dedupPrograms l, ∃ p ∈ l, q = normalizeRaw p) := by
  constructor
  · intro l₁ l₂ h
    unfold dedupPrograms
    rw [List.foldl_append]
    exact foldl_dedupStep_skip_all _ l₂ h
  · intro l q hq
    rcases mem_dedupFold l [] q hq with h | h
    · cases h
    · exact h

/-- Witness for the amended C4 at a concrete input: a later duplicate
(with a populated cost) leaves the deduplicated list untouched. -/
theorem dedup_first_seen_wins_witness :
    dedupPrograms
      ([{ program_name := some "Solar Install Training" }] ++
       [{ program_name := some "Solar Install Training", cost := some "$100" }])
      = dedupPrograms [{ program_name := some "Solar Install Training" }] :=
  (dedup_first_seen_wins.1
    [{ program_name := some "Solar Install Training" }]
    [{ program_name := some "Solar Install Training", cost := some "$100" }]
    (by
      intro p hp
      rw [List.mem_singleton.mp hp]
      exact Or.inr ⟨normalizeRaw { program_name := some "Solar Install Training" },
        by decide, by decide⟩))

/-! ## `save_programs_to_database` (training.py lines 203-235)

The cache store is a list of `training_programs` rows; the per-program
existence query `.eq('program_name', name).eq('state', user_state)` is a
scan on the (program_name, state) key.  A program whose key exists is
skipped (the loop body does nothing: there is no update); otherwise a row
built from the program (plus `source='careeronestop'`, `is_active=True`)
is inserted.  The surrounding `try/except` (a store failure aborts the
remaining saves without failing the request) is not modelled: the store is
assumed reachable. -/

/-- A row of the `training_programs` table as written by the insert. -/
structure DBRow where
  program_name : String := ""
  provider : String := ""
  state : String := ""
  location : String := ""
  duration : String := ""
  cost : String := ""
  description : String := ""
  url : String := ""
  is_coal_miner_specific : Bool := false
  source : String := ""
  is_active : Bool := true
deriving Repr, DecidableEq

/-- The `program_data` insert of lines 217-229. -/
def rowOfProgram (p : NormProgram) (user_state : String) : DBRow :=
  { program_name := p.program_name
    provider := p.provider
    state := user_state
    location := p.location
    duration := p.duration
    cost := p.cost
    description := p.description
    url := p.url
    is_coal_miner_specific := p.is_coal_miner_specific
    source := "careeronestop"
    is_active := true }

/-- One iteration of the save loop: skip when a row with the same
(program_name, state) exists, insert otherwise. -/
def saveStep (user_state : String) (db : List DBRow) (p : NormProgram) : List DBRow :=
  if db.any (fun r => r.program_name == p.program_name && r.state == user_state) then
    db
  else
    db ++ [rowOfProgram p user_state]

/-- `save_programs_to_database(supabase, programs, user_state)`: the store
after the loop. -/
def save_programs_to_database (db : List DBRow) (programs : List NormProgram)
    (user_state : String) : List DBRow :=
  programs.foldl (saveStep user_state) db

theorem saveStep_cases (st : String) (db : List DBRow) (p : NormProgram) :
    saveStep st db p = db ∨ saveStep st db p = db ++ [rowOfProgram p st] := by
  unfold saveStep
  split
  · exact Or.inl rfl
  · exact Or.inr rfl

theorem save_foldl_prefix (st : String) (l : List NormProgram) (db : List DBRow) :
    ∃ ext, l.foldl (saveStep st) db = db ++ ext := by
  induction l generalizing db with
  | nil => exact ⟨[], (List.append_nil db).symm⟩
  | cons p ps ih =>
    rw [List.foldl_cons]
    rcases saveStep_cases st db p with h | h
    · rw [h]
      exact ih db
    · rw [h]
      obtain ⟨ext, hext⟩ := ih (db ++ [rowOfProgram p st])
      exact ⟨[rowOfProgram p st] ++ ext, by rw [hext, List.append_assoc]⟩

theorem save_mem_key (st : String) (l : List NormProgram) (db : List DBRow) :
    ∀ p ∈ l, ∃ r ∈ l.foldl (saveStep st) db,
      r.program_name = p.program_name ∧ r.state = st := by
  induction l generalizing db with
  | nil =>
    intro p hp
    cases hp
  | cons q qs ih =>
    intro p hp
    rw [List.foldl_cons]
    rcases List.mem_cons.mp hp with rfl | hp'
    · have hstep : ∃ r ∈ saveStep st db p,
          r.program_name = p.program_name ∧ r.state = st := by
        unfold saveStep
        split
        · rename_i h
          rw [List.any_eq_true] at h
          obtain ⟨r, hr, hmatch⟩ := h
          rw [Bool.and_eq_true, beq_iff_eq, beq_iff_eq] at hmatch
          exact ⟨r, hr, hmatch.1, hmatch.2⟩
        · exact ⟨rowOfProgram p st,
            List.mem_append_right _ (List.mem_singleton_self _), rfl, rfl⟩
      obtain ⟨r, hr, hmatch⟩ := hstep
      obtain ⟨ext, hext⟩ := save_foldl_prefix st qs (saveStep st db p)
      exact ⟨r, by rw [hext]; exact List.mem_append_left _ hr, hmatch⟩
    · exact ih (saveStep st db q) p hp'

/-- Counterexample to C2 as stated: the store already holds the key
`('Solar Install Training', 'west_virginia')` with an empty cost; saving a
program with that key and a non-empty cost `'$100'` leaves the store
byte-for-byte unchanged — the stored row is NOT updated with the non-empty
incoming value. -/
theorem save_existing_not_updated_cex :
    save_programs_to_database
      [{ program_name := "Solar Install Training", state := "west_virginia",
         source := "careeronestop" }]
      [{ program_name := "Solar Install Training", cost := "$100" }]
      "west_virginia"
    = [{ program_name := "Solar Install Training", state := "west_virginia",
         source := "careeronestop" }] ∧
    (save_programs_to_database
      [{ program_name := "Solar Install Training", state := "west_virginia",
         source := "careeronestop" }]
      [{ program_name := "Solar Install Training", cost := "$100" }]
      "west_virginia").map (fun r => r.cost) = [""] := by
  constructor
  · rfl
  · rfl

/-- C2 (amended): after the pipeline runs, each resulting program is
insert-or-skipped: a program whose identity key (program_name, state) is
new is inserted; one whose key already exists is skipped, leaving the
stored row unchanged (no update, no merge of non-empty incoming values).
Pre-existing rows are preserved in place, and afterwards every program has
a row with its key in the store. -/
theorem save_programs_insert_or_skip (db : List DBRow) (programs : List NormProgram)
    (user_state : String) :
    (save_programs_to_database db programs user_state).take db.length = db ∧
    ∀ p ∈ programs, ∃ r ∈ save_programs_to_database db programs user_state,
      r.program_name = p.program_name ∧ r.state = user_state := by
  constructor
  · obtain ⟨ext, hext⟩ := save_foldl_prefix user_state programs db
    rw [save_programs_to_database, hext, List.take_left]
  · exact save_mem_key user_state programs db

/-- Witness for the amended C2 at a concrete input: saving one program
into the empty store preserves the (empty) prefix and creates a row with
the program's key. -/
theorem save_programs_insert_or_skip_witness :
    (save_programs_to_database [] [{ program_name := "A" }] "west_virginia").take 0 = [] ∧
    ∃ r ∈ save_programs_to_database [] [{ program_name := "A" }] "west_virginia",
      r.program_name = ({ program_name := "A" } : NormProgram).program_name ∧
      r.state = "west_virginia" :=
  ⟨(save_programs_insert_or_skip [] [{ program_name := "A" }] "west_virginia").1,
   (save_programs_insert_or_skip [] [{ program_name := "A" }] "west_virginia").2
     _ (by decide)⟩

end G2C
